import Mathlib

/-!
Verification development for the STM32G4 QuadSPI driver (`src/quadspi.rs`).

The driver compiles a declarative transaction descriptor (`Command` /
`IoCommand`) into writes of the peripheral registers (ABR, CCR, AR, DLR, DR)
and polling loops over status flags.  We embed the argument-encoding type
`CommandArgumentData`, the descriptor builders, the register-configuration
step `Qspi::config`, and the four public entry points `command`, `read`,
`write`, `memory_mapped` as pure Lean functions.  Stateful register access is
modelled by the ordered list of register-write / flag-poll events an execution
performs; the value written to the combined control register CCR is modelled
at field granularity (every field an `Option`, `none` meaning the write
closure left the field at its reset value).

Machine bytes (`u8`) are modelled as `Fin 256`; register values that the code
assembles from bytes stay below `2 ^ 32`, so `Nat` arithmetic is exact.
-/

namespace Quadspi

/-- Line width of one transaction phase: `LineMode` in the source. -/
inductive LineMode
  | Single
  | Dual
  | Quad
  deriving DecidableEq, Repr

/-- `CommandInstruction` in the source: an instruction byte with its line width. -/
structure CommandInstruction where
  mode : LineMode
  data : Fin 256
  deriving DecidableEq, Repr

/-- `CommandArgumentData` in the source: 1 to 4 raw little-endian bytes of an
address or alternate-bytes argument. -/
inductive CommandArgumentData
  | OneByte (b0 : Fin 256)
  | TwoBytes (b0 b1 : Fin 256)
  | ThreeBytes (b0 b1 b2 : Fin 256)
  | FourBytes (b0 b1 b2 b3 : Fin 256)
  deriving DecidableEq, Repr

/-- `u32::from_le_bytes` on four byte values: little-endian recomposition. -/
def u32FromLeBytes (a b c d : Nat) : Nat :=
  a + 256 * b + 65536 * c + 16777216 * d

/-- `CommandArgumentData::to_u32` in the source.  Note the `ThreeBytes` arm is
transcribed exactly as written there: `u32::from_le_bytes([0, x[0], x[1], x[2]])`,
the zero pad sitting in the lowest byte. -/
def CommandArgumentData.to_u32 : CommandArgumentData → Nat
  | .OneByte b0 => b0.val
  | .TwoBytes b0 b1 => b0.val + 256 * b1.val
  | .ThreeBytes b0 b1 b2 => u32FromLeBytes 0 b0.val b1.val b2.val
  | .FourBytes b0 b1 b2 b3 => u32FromLeBytes b0.val b1.val b2.val b3.val

/-- Byte width of the argument (1, 2, 3 or 4). -/
def CommandArgumentData.byteWidth : CommandArgumentData → Nat
  | .OneByte _ => 1
  | .TwoBytes _ _ => 2
  | .ThreeBytes _ _ _ => 3
  | .FourBytes _ _ _ _ => 4

/-- `From<[u8; 1]> for CommandArgumentData`. -/
def fromBytes1 (v : Fin 256) : CommandArgumentData := .OneByte v

/-- `From<[u8; 2]> for CommandArgumentData`. -/
def fromBytes2 (v0 v1 : Fin 256) : CommandArgumentData := .TwoBytes v0 v1

/-- `From<[u8; 3]> for CommandArgumentData`. -/
def fromBytes3 (v0 v1 v2 : Fin 256) : CommandArgumentData := .ThreeBytes v0 v1 v2

/-- `From<[u8; 4]> for CommandArgumentData`. -/
def fromBytes4 (v0 v1 v2 v3 : Fin 256) : CommandArgumentData := .FourBytes v0 v1 v2 v3

/-- Modelled from the spec: the canonical value of a little-endian byte
sequence, zero-extended to 32 bits — "`to_u32` reconstructs the little-endian
zero-extended value".  This is the specification-side definition the code-side
`to_u32` is compared against. -/
def leZeroExtend (bytes : List Nat) : Nat :=
  bytes.foldr (fun b acc => b + 256 * acc) 0

/-- The bytes stored in a `CommandArgumentData`, in source (little-endian) order. -/
def CommandArgumentData.bytes : CommandArgumentData → List Nat
  | .OneByte b0 => [b0.val]
  | .TwoBytes b0 b1 => [b0.val, b1.val]
  | .ThreeBytes b0 b1 b2 => [b0.val, b1.val, b2.val]
  | .FourBytes b0 b1 b2 b3 => [b0.val, b1.val, b2.val, b3.val]

/-- `DdrMode` in the source. -/
inductive DdrMode
  | Disabled
  | Enabled
  | EnabledWithHold
  deriving DecidableEq, Repr

/-- `CommandArgument` in the source: argument bytes with their line width. -/
structure CommandArgument where
  mode : LineMode
  data : CommandArgumentData
  deriving DecidableEq, Repr

/-- `Command` in the source: a data-less transaction descriptor. -/
structure Command where
  ddr_mode : DdrMode
  instruction : Option CommandInstruction
  address : Option CommandArgument
  alternate_bytes : Option CommandArgument
  deriving DecidableEq, Repr

/-- `Command::new`. -/
def Command.new (ddr_mode : DdrMode) : Command :=
  { ddr_mode := ddr_mode
    instruction := none
    address := none
    alternate_bytes := none }

/-- `Command::with_instruction`. -/
def Command.with_instruction (self : Command) (line_mode : LineMode)
    (instruction : Fin 256) : Command :=
  { self with instruction := some { mode := line_mode, data := instruction } }

/-- `Command::with_address`. -/
def Command.with_address (self : Command) (line_mode : LineMode)
    (adddress : CommandArgumentData) : Command :=
  { self with address := some { mode := line_mode, data := adddress } }

/-- `Command::with_alternate_bytes`. -/
def Command.with_alternate_bytes (self : Command) (line_mode : LineMode)
    (alternate_bytes : CommandArgumentData) : Command :=
  { self with alternate_bytes := some { mode := line_mode, data := alternate_bytes } }

/-- `IoCommand` in the source: a data-bearing transaction descriptor. -/
structure IoCommand where
  ddr_mode : DdrMode
  send_instruction_once : Bool
  instruction : Option CommandInstruction
  address : Option CommandArgument
  alternate_bytes : Option CommandArgument
  dummy_cycles : Fin 256
  data_mode : LineMode
  deriving DecidableEq, Repr

/-- `IoCommand::new`. -/
def IoCommand.new (ddr_mode : DdrMode) (line_mode : LineMode) : IoCommand :=
  { ddr_mode := ddr_mode
    send_instruction_once := false
    instruction := none
    address := none
    alternate_bytes := none
    dummy_cycles := 0
    data_mode := line_mode }

/-- `IoCommand::with_send_instruction_once`. -/
def IoCommand.with_send_instruction_once (self : IoCommand) : IoCommand :=
  { self with send_instruction_once := true }

/-- `IoCommand::with_instruction`. -/
def IoCommand.with_instruction (self : IoCommand) (line_mode : LineMode)
    (instruction : Fin 256) : IoCommand :=
  { self with instruction := some { mode := line_mode, data := instruction } }

/-- `IoCommand::with_address`. -/
def IoCommand.with_address (self : IoCommand) (line_mode : LineMode)
    (adddress : CommandArgumentData) : IoCommand :=
  { self with address := some { mode := line_mode, data := adddress } }

/-- `IoCommand::with_alternate_bytes`. -/
def IoCommand.with_alternate_bytes (self : IoCommand) (line_mode : LineMode)
    (alternate_bytes : CommandArgumentData) : IoCommand :=
  { self with alternate_bytes := some { mode := line_mode, data := alternate_bytes } }

/-- `IoCommand::with_dummy_cycles`. -/
def IoCommand.with_dummy_cycles (self : IoCommand) (dummy_cycles : Fin 256) : IoCommand :=
  { self with dummy_cycles := dummy_cycles }

/-- `FunctionalMode` in the source. -/
inductive FunctionalMode
  | Read
  | Write
  | Poll
  | Mapped
  deriving DecidableEq, Repr

/-- Value written to a phase-mode field of CCR: the `no_*` variant (phase
absent) or the line count (`single_line` / `two_lines` / `four_lines`). -/
inductive PhaseModeCode
  | noPhase
  | singleLine
  | twoLines
  | fourLines
  deriving DecidableEq, Repr

/-- Value written to the `adsize` / `absize` field of CCR
(`bit8` / `bit16` / `bit24` / `bit32`). -/
inductive SizeCode
  | bit8
  | bit16
  | bit24
  | bit32
  deriving DecidableEq, Repr

/-- Value written to the `fmode` field of CCR. -/
inductive FmodeCode
  | indirectWrite
  | indirectRead
  | automaticPolling
  | memoryMapped
  deriving DecidableEq, Repr

/-- Line-width code of a present phase. -/
def lineCode : LineMode → PhaseModeCode
  | .Single => .singleLine
  | .Dual => .twoLines
  | .Quad => .fourLines

/-- The `adsize` / `absize` code chosen by `config`: the code matches only on
the `CommandArgumentData` variant, ignoring the stored bytes. -/
def argSizeCode : CommandArgumentData → SizeCode
  | .OneByte _ => .bit8
  | .TwoBytes _ _ => .bit16
  | .ThreeBytes _ _ _ => .bit24
  | .FourBytes _ _ _ _ => .bit32

/-- `fmode` code for each `FunctionalMode`. -/
def fmodeCode : FunctionalMode → FmodeCode
  | .Read => .indirectRead
  | .Write => .indirectWrite
  | .Poll => .automaticPolling
  | .Mapped => .memoryMapped

/-- The CCR write closure's accumulated field assignments.  A `write` of a
register starts from the reset value and each field setter overwrites one
field; `none` means the closure never touched the field (so the hardware
keeps the reset value for it). -/
structure CcrFields where
  instruction : Option (Fin 256) := none
  imode : Option PhaseModeCode := none
  admode : Option PhaseModeCode := none
  adsize : Option SizeCode := none
  abmode : Option PhaseModeCode := none
  absize : Option SizeCode := none
  dcyc : Option (Fin 256) := none
  dmode : Option PhaseModeCode := none
  fmode : Option FmodeCode := none
  sioo : Option Bool := none
  dhhc : Option Bool := none
  ddrm : Option Bool := none
  deriving DecidableEq, Repr

/-- The CCR write closure inside `Qspi::config`, with the field setters
applied in source order: instruction, address, alternate bytes, dummy
cycles, data mode, functional mode, then `sioo` / `dhhc` / `ddrm`. -/
def configCcr (functional_mode : FunctionalMode) (send_instruction_once : Bool)
    (ddr_mode : DdrMode) (instruction : Option CommandInstruction)
    (address : Option CommandArgument) (alternate_bytes : Option CommandArgument)
    (dummy_cycles : Fin 256) (data_mode : Option LineMode) : CcrFields :=
  let w : CcrFields := {}
  let w :=
    match instruction with
    | some inst => { w with instruction := some inst.data, imode := some (lineCode inst.mode) }
    | none => { w with imode := some .noPhase }
  let w :=
    match address with
    | some addr =>
        { w with admode := some (lineCode addr.mode), adsize := some (argSizeCode addr.data) }
    | none => { w with admode := some .noPhase }
  let w :=
    match alternate_bytes with
    | some altb =>
        { w with abmode := some (lineCode altb.mode), absize := some (argSizeCode altb.data) }
    | none => { w with abmode := some .noPhase }
  let w := { w with dcyc := some dummy_cycles }
  let w :=
    match data_mode with
    | some datm => { w with dmode := some (lineCode datm) }
    | none => { w with dmode := some .noPhase }
  let w := { w with fmode := some (fmodeCode functional_mode) }
  { w with
      sioo := some send_instruction_once
      dhhc := some (decide (ddr_mode = DdrMode.EnabledWithHold))
      ddrm := some (decide (ddr_mode ≠ DdrMode.Disabled)) }

/-- One observable action of the executor: a register write or a spin-wait on
a status flag.  `writeAR none` is the `ar().write(|w| w)` case (the reset
value is written back when no address phase exists); `pollFtfOrTcf` is the
read loop's combined wait that exits when either the FIFO-threshold flag or
the transfer-complete flag is seen set. -/
inductive Event
  | writeABR (v : Nat)
  | writeCCR (w : CcrFields)
  | writeAR (v : Option Nat)
  | writeDLR (v : Nat)
  | pollBusy
  | pollTcf
  | pollFtf
  | pollFtfOrTcf
  | readDR (i : Nat)
  | writeDR (b : Fin 256)
  deriving DecidableEq, Repr

/-- `Qspi::config`: the three register writes it performs, in source order —
ABR first (value 0 when the alternate-bytes phase is absent), then CCR, then
AR last. -/
def configEvents (functional_mode : FunctionalMode) (send_instruction_once : Bool)
    (ddr_mode : DdrMode) (instruction : Option CommandInstruction)
    (address : Option CommandArgument) (alternate_bytes : Option CommandArgument)
    (dummy_cycles : Fin 256) (data_mode : Option LineMode) : List Event :=
  [ Event.writeABR
      (match alternate_bytes with
       | some altb => altb.data.to_u32
       | none => 0),
    Event.writeCCR
      (configCcr functional_mode send_instruction_once ddr_mode instruction address
        alternate_bytes dummy_cycles data_mode),
    Event.writeAR
      (match address with
       | some addr => some addr.data.to_u32
       | none => none) ]

/-- `u32::try_from(len).unwrap() - 1`: the length-minus-one encoding written
to the data-length register.  On the 32-bit target `usize` equals `u32`, so
the conversion itself cannot fail; the subtraction underflows (a fatal panic)
exactly when the buffer is empty, modelled as `none`. -/
def lengthMinusOne (len : Nat) : Option Nat :=
  if len = 0 then none else some (len - 1)

/-- The byte loop of `Qspi::read`, started at index `i` with `n` iterations
left: each iteration spins until the FIFO-threshold or transfer-complete flag
is set, then pops one byte from the data register into buffer slot `i`. -/
def readLoop : Nat → Nat → List Event
  | _, 0 => []
  | i, n + 1 => Event.pollFtfOrTcf :: Event.readDR i :: readLoop (i + 1) n

/-- The byte loop of `Qspi::write`: each iteration spins on the
FIFO-threshold flag, then pushes one buffer byte into the data register. -/
def writeLoop : List (Fin 256) → List Event
  | [] => []
  | b :: rest => Event.pollFtf :: Event.writeDR b :: writeLoop rest

/-- `Qspi::command`: busy-wait, configure with `FunctionalMode::Write`,
`send_instruction_once = false`, zero dummy cycles and no data mode, then
spin on the transfer-complete flag. -/
def commandEvents (command : Command) : List Event :=
  Event.pollBusy ::
    configEvents FunctionalMode.Write false command.ddr_mode command.instruction
      command.address command.alternate_bytes 0 none
    ++ [Event.pollTcf]

/-- `Qspi::read`: busy-wait, program DLR with `len - 1` (`none` models the
fatal underflow panic on an empty buffer), configure with
`FunctionalMode::Read`, then run the byte loop; nothing follows the loop. -/
def readEvents (command : IoCommand) (len : Nat) : Option (List Event) :=
  match lengthMinusOne len with
  | none => none
  | some dl =>
      some (Event.pollBusy :: Event.writeDLR dl ::
        configEvents FunctionalMode.Read command.send_instruction_once command.ddr_mode
          command.instruction command.address command.alternate_bytes
          command.dummy_cycles (some command.data_mode)
        ++ readLoop 0 len)

/-- `Qspi::write`: busy-wait, program DLR with `len - 1`, configure with
`FunctionalMode::Write`, run the byte loop, then spin on transfer-complete. -/
def writeEvents (command : IoCommand) (data : List (Fin 256)) : Option (List Event) :=
  match lengthMinusOne data.length with
  | none => none
  | some dl =>
      some (Event.pollBusy :: Event.writeDLR dl ::
        configEvents FunctionalMode.Write command.send_instruction_once command.ddr_mode
          command.instruction command.address command.alternate_bytes
          command.dummy_cycles (some command.data_mode)
        ++ writeLoop data ++ [Event.pollTcf])

/-- `Qspi::memory_mapped`: busy-wait, configure with `FunctionalMode::Mapped`,
and return immediately — no further events. -/
def memoryMappedEvents (command : IoCommand) : List Event :=
  Event.pollBusy ::
    configEvents FunctionalMode.Mapped command.send_instruction_once command.ddr_mode
      command.instruction command.address command.alternate_bytes
      command.dummy_cycles (some command.data_mode)

/-- Whether an event reads one byte out of the data register. -/
def Event.isDrRead : Event → Bool
  | .readDR _ => true
  | _ => false

/-- Whether an event waits on the transfer-complete flag alone. -/
def Event.isTcfPoll : Event → Bool
  | .pollTcf => true
  | _ => false

/-- Whether an event waits on a data-handshake flag (FIFO threshold or
transfer complete, alone or combined). -/
def Event.isCompletionPoll : Event → Bool
  | .pollTcf => true
  | .pollFtf => true
  | .pollFtfOrTcf => true
  | _ => false

/-- Whether an event touches the data-length register or the data register. -/
def Event.isDataAccess : Event → Bool
  | .writeDLR _ => true
  | .readDR _ => true
  | .writeDR _ => true
  | _ => false

/-- A sample data-bearing descriptor used to instantiate theorems with
hypotheses at concrete inputs. -/
def sampleIo : IoCommand := IoCommand.new DdrMode.Disabled LineMode.Single

/-! ### Supporting lemmas about the byte loops -/

/-- The read loop's data-register reads, in order, target buffer slots
`i, i + 1, …`: filtering the loop trace down to DR reads yields exactly the
consecutive index range. -/
theorem readLoop_filter_drRead (n : Nat) : ∀ i : Nat,
    (readLoop i n).filter Event.isDrRead = (List.range' i n).map Event.readDR := by
  induction n with
  | zero => intro i; rfl
  | succ n ih =>
      intro i
      simp [readLoop, List.range'_succ, Event.isDrRead, ih (i + 1)]

/-- A nonempty read loop ends with the DR read of its last buffer slot. -/
theorem readLoop_getLast (n : Nat) : ∀ i : Nat,
    (readLoop i (n + 1)).getLast? = some (Event.readDR (i + n)) := by
  induction n with
  | zero => intro i; rfl
  | succ n ih =>
      intro i
      have h := ih (i + 1)
      simpa [readLoop, Nat.add_assoc, Nat.add_comm 1 n] using h

/-- The read loop never waits on the transfer-complete flag alone. -/
theorem readLoop_countP_tcf (n : Nat) : ∀ i : Nat,
    (readLoop i n).countP Event.isTcfPoll = 0 := by
  induction n with
  | zero => intro i; rfl
  | succ n ih =>
      intro i
      simp [readLoop, List.countP_cons, Event.isTcfPoll, ih (i + 1)]

/-- The size code is determined by the `CommandArgumentData` variant, i.e. by
its byte width alone. -/
theorem argSizeCode_eq_of_byteWidth_eq (a b : CommandArgumentData)
    (h : a.byteWidth = b.byteWidth) : argSizeCode a = argSizeCode b := by
  cases a <;> cases b <;>
    first
      | rfl
      | simp [CommandArgumentData.byteWidth] at h

/-! ### Claim theorems -/

/-- Claim C1: refuted by the code.  For widths 1, 2 and 4 `to_u32` is the
little-endian zero-extension of the bytes, but for width 3 the source builds
`u32::from_le_bytes([0, x[0], x[1], x[2]])`, placing the zero pad in the low
byte: the 3-byte little-endian encoding of 1, namely `[1, 0, 0]`, decodes to
256 instead of 1, and the width-3 round trip through `From<[u8; 3]>` fails. -/
theorem to_u32_threeByte_not_le_zero_extension :
    (fromBytes3 1 0 0).to_u32 = 256 ∧
    leZeroExtend (fromBytes3 1 0 0).bytes = 1 ∧
    (fromBytes3 1 0 0).to_u32 ≠ leZeroExtend (fromBytes3 1 0 0).bytes ∧
    (fromBytes1 7).to_u32 = leZeroExtend (fromBytes1 7).bytes ∧
    (fromBytes2 7 5).to_u32 = leZeroExtend (fromBytes2 7 5).bytes ∧
    (fromBytes4 7 5 3 2).to_u32 = leZeroExtend (fromBytes4 7 5 3 2).bytes := by
  refine ⟨rfl, rfl, by decide, rfl, rfl, rfl⟩

/-- Claim C2: `config` performs exactly three register writes, in the order
ABR, then CCR, then AR; when the alternate-bytes phase is absent the ABR
write still happens, with value 0. -/
theorem config_write_order (fm : FunctionalMode) (sioo : Bool) (ddr : DdrMode)
    (instr : Option CommandInstruction) (addr altb : Option CommandArgument)
    (dcyc : Fin 256) (dm : Option LineMode) :
    (∃ a w r, configEvents fm sioo ddr instr addr altb dcyc dm =
        [Event.writeABR a, Event.writeCCR w, Event.writeAR r]) ∧
    (configEvents fm sioo ddr instr addr none dcyc dm).head? =
      some (Event.writeABR 0) :=
  ⟨⟨_, _, _, rfl⟩, rfl⟩

/-- Claim C3: `read` and `write` program the data-length register with
`len - 1` immediately after the busy wait and before the `config` register
writes; a zero-length buffer is a fatal error (`none`), never a silent wrap. -/
theorem length_register_encoding (c : IoCommand) (len : Nat)
    (data : List (Fin 256)) (h : 1 ≤ len) (hd : 1 ≤ data.length) :
    (∃ rest, readEvents c len = some (Event.pollBusy :: Event.writeDLR (len - 1) ::
      configEvents FunctionalMode.Read c.send_instruction_once c.ddr_mode c.instruction
        c.address c.alternate_bytes c.dummy_cycles (some c.data_mode) ++ rest)) ∧
    (∃ rest, writeEvents c data = some (Event.pollBusy ::
      Event.writeDLR (data.length - 1) ::
      configEvents FunctionalMode.Write c.send_instruction_once c.ddr_mode c.instruction
        c.address c.alternate_bytes c.dummy_cycles (some c.data_mode) ++ rest)) ∧
    readEvents c 0 = none ∧ writeEvents c [] = none := by
  have hl : len ≠ 0 := Nat.one_le_iff_ne_zero.mp h
  have hdl : data.length ≠ 0 := Nat.one_le_iff_ne_zero.mp hd
  refine ⟨⟨readLoop 0 len, ?_⟩, ⟨writeLoop data ++ [Event.pollTcf], ?_⟩, rfl, rfl⟩
  · simp [readEvents, lengthMinusOne, hl]
  · simp [writeEvents, lengthMinusOne, hdl]

/-- Instantiation of `length_register_encoding` at a 1-byte buffer. -/
theorem length_register_encoding_witness :
    (1 ≤ 1) ∧ ((1 : Nat) ≤ [(0 : Fin 256)].length) ∧
    ((∃ rest, readEvents sampleIo 1 = some (Event.pollBusy :: Event.writeDLR 0 ::
      configEvents FunctionalMode.Read false DdrMode.Disabled none none none 0
        (some LineMode.Single) ++ rest)) ∧
    (∃ rest, writeEvents sampleIo [(0 : Fin 256)] = some (Event.pollBusy ::
      Event.writeDLR 0 ::
      configEvents FunctionalMode.Write false DdrMode.Disabled none none none 0
        (some LineMode.Single) ++ rest)) ∧
    readEvents sampleIo 0 = none ∧ writeEvents sampleIo [] = none) :=
  ⟨by decide, by decide,
    length_register_encoding sampleIo 1 [(0 : Fin 256)] (by decide) (by decide)⟩

/-- Claim C4: the compiled CCR value always carries a definite phase-mode
for instruction, address and alternate bytes — the line-width code of a
present phase, the explicit no-phase code of an absent one; none of the
three mode fields is ever left unwritten. -/
theorem config_phase_modes_definite (fm : FunctionalMode) (sioo : Bool)
    (ddr : DdrMode) (instr : Option CommandInstruction)
    (addr altb : Option CommandArgument) (dcyc : Fin 256) (dm : Option LineMode) :
    (configCcr fm sioo ddr instr addr altb dcyc dm).imode =
      some (match instr with
            | some i => lineCode i.mode
            | none => PhaseModeCode.noPhase) ∧
    (configCcr fm sioo ddr instr addr altb dcyc dm).admode =
      some (match addr with
            | some a => lineCode a.mode
            | none => PhaseModeCode.noPhase) ∧
    (configCcr fm sioo ddr instr addr altb dcyc dm).abmode =
      some (match altb with
            | some b => lineCode b.mode
            | none => PhaseModeCode.noPhase) := by
  cases instr <;> cases addr <;> cases altb <;> cases dm <;>
    exact ⟨rfl, rfl, rfl⟩

/-- Claim C5: in the compiled CCR value, the DDR hold bit `dhhc` is set iff
the DDR mode is `EnabledWithHold`, and the DDR enable bit `ddrm` is set iff
the DDR mode is not `Disabled`. -/
theorem config_ddr_bits (fm : FunctionalMode) (sioo : Bool) (ddr : DdrMode)
    (instr : Option CommandInstruction) (addr altb : Option CommandArgument)
    (dcyc : Fin 256) (dm : Option LineMode) :
    ((configCcr fm sioo ddr instr addr altb dcyc dm).dhhc = some true ↔
      ddr = DdrMode.EnabledWithHold) ∧
    ((configCcr fm sioo ddr instr addr altb dcyc dm).ddrm = some true ↔
      ddr ≠ DdrMode.Disabled) := by
  cases ddr <;> constructor <;> simp [configCcr]

/-- Claim C6: for a read of `len ≥ 1` bytes the trace after configuration is
exactly the byte loop: `len` iterations in buffer order, each first waiting
for FIFO-threshold-or-transfer-complete then consuming one DR byte, with the
final DR read ending the whole trace (no completion wait follows) and no
standalone transfer-complete wait anywhere. -/
theorem read_protocol (c : IoCommand) (len : Nat) (h : 1 ≤ len) :
    ∃ tr, readEvents c len = some tr ∧
      tr = Event.pollBusy :: Event.writeDLR (len - 1) ::
        configEvents FunctionalMode.Read c.send_instruction_once c.ddr_mode c.instruction
          c.address c.alternate_bytes c.dummy_cycles (some c.data_mode) ++
        readLoop 0 len ∧
      tr.filter Event.isDrRead = (List.range len).map Event.readDR ∧
      tr.getLast? = some (Event.readDR (len - 1)) ∧
      tr.countP Event.isTcfPoll = 0 := by
  obtain ⟨n, rfl⟩ : ∃ n, len = n + 1 := ⟨len - 1, (Nat.succ_pred_eq_of_pos h).symm⟩
  refine ⟨_, by simp [readEvents, lengthMinusOne], rfl, ?_, ?_, ?_⟩
  · rw [List.filter_append, readLoop_filter_drRead, List.range_eq_range']
    simp [configEvents, Event.isDrRead]
  · rw [List.getLast?_append_of_ne_nil]
    · simpa using readLoop_getLast n 0
    · simp [readLoop]
  · rw [List.countP_append, readLoop_countP_tcf]
    simp [configEvents, List.countP_cons, Event.isTcfPoll]

/-- Instantiation of `read_protocol` at a 2-byte read. -/
theorem read_protocol_witness :
    (1 ≤ 2) ∧
    ∃ tr, readEvents sampleIo 2 = some tr ∧
      tr = Event.pollBusy :: Event.writeDLR 1 ::
        configEvents FunctionalMode.Read false DdrMode.Disabled none none none 0
          (some LineMode.Single) ++ readLoop 0 2 ∧
      tr.filter Event.isDrRead = (List.range 2).map Event.readDR ∧
      tr.getLast? = some (Event.readDR 1) ∧
      tr.countP Event.isTcfPoll = 0 :=
  ⟨by decide, read_protocol sampleIo 2 (by decide)⟩

/-- Claim C7: `command` performs exactly one busy wait, then the three
`config` writes with functional mode Write, no data phase, zero dummy cycles
and `sioo` false, then one transfer-complete wait which is the last event;
it never touches the data-length or data registers. -/
theorem command_protocol (c : Command) :
    ∃ a w r, commandEvents c =
      [Event.pollBusy, Event.writeABR a, Event.writeCCR w, Event.writeAR r,
        Event.pollTcf] ∧
      w.fmode = some FmodeCode.indirectWrite ∧
      w.dmode = some PhaseModeCode.noPhase ∧
      w.dcyc = some 0 ∧
      w.sioo = some false ∧
      (commandEvents c).countP Event.isDataAccess = 0 ∧
      (commandEvents c).getLast? = some Event.pollTcf :=
  ⟨_, _, _, rfl, rfl, rfl, rfl, rfl, rfl, rfl⟩

/-- Claim C8: `memory_mapped` performs the busy wait and the three `config`
writes with functional mode Mapped and then returns: its trace holds no
FIFO-threshold or transfer-complete poll of any kind and no data-length or
data-register access. -/
theorem memory_mapped_protocol (c : IoCommand) :
    ∃ a w r, memoryMappedEvents c =
      [Event.pollBusy, Event.writeABR a, Event.writeCCR w, Event.writeAR r] ∧
      w.fmode = some FmodeCode.memoryMapped ∧
      (memoryMappedEvents c).countP Event.isCompletionPoll = 0 ∧
      (memoryMappedEvents c).countP Event.isDataAccess = 0 :=
  ⟨_, _, _, rfl, rfl, rfl, rfl⟩

/-- Claim C9: the compiled address-size and alternate-bytes-size codes are a
function of the argument's byte width only — two arguments of equal width
but arbitrary different bytes and line modes compile to identical size
fields. -/
theorem size_code_independent_of_value (fm : FunctionalMode) (sioo : Bool)
    (ddr : DdrMode) (instr : Option CommandInstruction) (dcyc : Fin 256)
    (dm : Option LineMode) (addrA addrB altA altB : CommandArgument)
    (had : addrA.data.byteWidth = addrB.data.byteWidth)
    (hab : altA.data.byteWidth = altB.data.byteWidth) :
    (configCcr fm sioo ddr instr (some addrA) (some altA) dcyc dm).adsize =
      (configCcr fm sioo ddr instr (some addrB) (some altB) dcyc dm).adsize ∧
    (configCcr fm sioo ddr instr (some addrA) (some altA) dcyc dm).absize =
      (configCcr fm sioo ddr instr (some addrB) (some altB) dcyc dm).absize := by
  have h1 := argSizeCode_eq_of_byteWidth_eq _ _ had
  have h2 := argSizeCode_eq_of_byteWidth_eq _ _ hab
  cases instr <;> cases dm <;>
    exact ⟨by simp [configCcr, h1], by simp [configCcr, h2]⟩

/-- Instantiation of `size_code_independent_of_value`: an address byte 0x00
and an address byte 0xFF both compile to the 8-bit size code. -/
theorem size_code_independent_of_value_witness :
    ((CommandArgumentData.OneByte 0).byteWidth =
      (CommandArgumentData.OneByte 255).byteWidth) ∧
    ((CommandArgumentData.TwoBytes 0 0).byteWidth =
      (CommandArgumentData.TwoBytes 9 9).byteWidth) ∧
    ((configCcr FunctionalMode.Read false DdrMode.Disabled none
        (some ⟨LineMode.Single, CommandArgumentData.OneByte 0⟩)
        (some ⟨LineMode.Dual, CommandArgumentData.TwoBytes 0 0⟩) 0 none).adsize =
      (configCcr FunctionalMode.Read false DdrMode.Disabled none
        (some ⟨LineMode.Quad, CommandArgumentData.OneByte 255⟩)
        (some ⟨LineMode.Single, CommandArgumentData.TwoBytes 9 9⟩) 0 none).adsize ∧
    (configCcr FunctionalMode.Read false DdrMode.Disabled none
        (some ⟨LineMode.Single, CommandArgumentData.OneByte 0⟩)
        (some ⟨LineMode.Dual, CommandArgumentData.TwoBytes 0 0⟩) 0 none).absize =
      (configCcr FunctionalMode.Read false DdrMode.Disabled none
        (some ⟨LineMode.Quad, CommandArgumentData.OneByte 255⟩)
        (some ⟨LineMode.Single, CommandArgumentData.TwoBytes 9 9⟩) 0 none).absize) :=
  ⟨rfl, rfl,
    size_code_independent_of_value FunctionalMode.Read false DdrMode.Disabled none 0 none
      ⟨LineMode.Single, CommandArgumentData.OneByte 0⟩
      ⟨LineMode.Quad, CommandArgumentData.OneByte 255⟩
      ⟨LineMode.Dual, CommandArgumentData.TwoBytes 0 0⟩
      ⟨LineMode.Single, CommandArgumentData.TwoBytes 9 9⟩ rfl rfl⟩

/-- Claim C10: builder setters are last-write-wins on both descriptor
shapes, and fresh descriptors have all three optional phases absent, with
`IoCommand::new` additionally defaulting `dummy_cycles` to 0 and
`send_instruction_once` to false. -/
theorem builder_defaults_and_last_write_wins :
    (∀ d : DdrMode, (Command.new d).instruction = none ∧
      (Command.new d).address = none ∧ (Command.new d).alternate_bytes = none) ∧
    (∀ (d : DdrMode) (lm : LineMode), (IoCommand.new d lm).instruction = none ∧
      (IoCommand.new d lm).address = none ∧
      (IoCommand.new d lm).alternate_bytes = none ∧
      (IoCommand.new d lm).dummy_cycles = 0 ∧
      (IoCommand.new d lm).send_instruction_once = false) ∧
    (∀ (c : Command) (lm lm' : LineMode) (i i' : Fin 256),
      (c.with_instruction lm i).with_instruction lm' i' = c.with_instruction lm' i') ∧
    (∀ (c : Command) (lm lm' : LineMode) (a a' : CommandArgumentData),
      (c.with_address lm a).with_address lm' a' = c.with_address lm' a') ∧
    (∀ (c : Command) (lm lm' : LineMode) (a a' : CommandArgumentData),
      (c.with_alternate_bytes lm a).with_alternate_bytes lm' a' =
        c.with_alternate_bytes lm' a') ∧
    (∀ (c : IoCommand) (lm lm' : LineMode) (i i' : Fin 256),
      (c.with_instruction lm i).with_instruction lm' i' = c.with_instruction lm' i') ∧
    (∀ (c : IoCommand) (lm lm' : LineMode) (a a' : CommandArgumentData),
      (c.with_address lm a).with_address lm' a' = c.with_address lm' a') ∧
    (∀ (c : IoCommand) (lm lm' : LineMode) (a a' : CommandArgumentData),
      (c.with_alternate_bytes lm a).with_alternate_bytes lm' a' =
        c.with_alternate_bytes lm' a') ∧
    (∀ (c : IoCommand) (n n' : Fin 256),
      (c.with_dummy_cycles n).with_dummy_cycles n' = c.with_dummy_cycles n') :=
  ⟨fun _ => ⟨rfl, rfl, rfl⟩, fun _ _ => ⟨rfl, rfl, rfl, rfl, rfl⟩,
    fun _ _ _ _ _ => rfl, fun _ _ _ _ _ => rfl, fun _ _ _ _ _ => rfl,
    fun _ _ _ _ _ => rfl, fun _ _ _ _ _ => rfl, fun _ _ _ _ _ => rfl,
    fun _ _ _ => rfl⟩

end Quadspi
